import Mathlib

/-!
Shallow embedding of the sidecar process supervisor in
`src/src-tauri/src/lib.rs` (Tauri host around a Python worker), together
with proofs about its lifecycle behaviour.

Processes are identified by their pid (a `Nat` standing in for the owned
`CommandChild` handle).  Interactions with the operating system (mutex
acquisition, stdin writes, kill signals, `lsof` output) are supplied as
explicit environment records, and each modelled function additionally
returns the ordered trace of OS-level actions it attempted.
-/

namespace Sidecar

/-- OS process identifier, standing in for an owned `CommandChild` handle. -/
abbrev Pid := Nat

/-- Rust struct `SidecarProcess` (lib.rs lines 7-9): the mutex-guarded slot
holding at most one sidecar child handle. -/
structure SidecarProcess where
  process : Option Pid
deriving Repr, DecidableEq

namespace SidecarProcess

/-- Rust `SidecarProcess::new` (lib.rs 12-14). -/
def new : SidecarProcess := ⟨none⟩

/-- Rust `SidecarProcess::set_process` (lib.rs 16-18): `self.process =
Some(process)` — an unconditional store that overwrites (and drops) any
handle already in the slot. -/
def set_process (_s : SidecarProcess) (p : Pid) : SidecarProcess := ⟨some p⟩

/-- Rust `SidecarProcess::take_process` (lib.rs 20-22): `Option::take`,
returning the held handle (if any) and leaving the slot empty. -/
def take_process (s : SidecarProcess) : Option Pid × SidecarProcess :=
  (s.process, ⟨none⟩)

/-- Rust `SidecarProcess::has_process` (lib.rs 24-26). -/
def has_process (s : SidecarProcess) : Bool := s.process.isSome

end SidecarProcess

/-- Observable OS-level actions issued by the supervisor, in the order the
code attempts them.  `write`, `sleepMs` and `kill` act through the owned
`CommandChild` handle; `sweepKill` is the external `kill -9 <pid>` issued by
the port sweep; `spawn` creates a fresh child process. -/
inductive Action where
  | write (p : Pid) (cmd : String)
  | sleepMs (ms : Nat)
  | kill (p : Pid)
  | sweepKill (p : Pid)
  | spawn (p : Pid)
deriving Repr, DecidableEq

/-- The fixed graceful-shutdown command line (lib.rs 45 and 183). -/
def shutdown_cmd : String := "sidecar shutdown\n"

/-- Environment outcomes for one stop invocation: whether the managed state
is found by `try_state`, whether the mutex lock succeeds (it fails only on
poisoning), whether the stdin write succeeds, and whether the kill signal is
delivered (per the code comments it fails when the process already exited). -/
structure StopEnv where
  stateManaged : Bool
  lockOk : Bool
  writeOk : Bool
  killOk : Bool
deriving Repr, DecidableEq

/-- Rust command `shutdown_sidecar` (lib.rs 174-218): take the handle under
the lock; on success write the shutdown command, sleep 500 ms and kill; on a
failed write, kill immediately; lock failure and state-not-found propagate
as errors.  Returns the command result, the slot afterwards, and the trace of
attempted OS actions.  The interpolated error texts of the write+kill double
failure (lib.rs 196) are abstracted to a fixed message. -/
def shutdown_sidecar (env : StopEnv) (s : SidecarProcess) :
    Except String String × SidecarProcess × List Action :=
  if env.stateManaged = false then
    (.error "Sidecar process state not found.", s, [])
  else if env.lockOk = false then
    (.error "[tauri] Failed to acquire lock on sidecar process.", s, [])
  else
    match s.process with
    | some p =>
      if env.writeOk = false then
        if env.killOk then
          (.ok "Sidecar forcefully terminated.", ⟨none⟩,
            [.write p shutdown_cmd, .kill p])
        else
          (.error "Failed to shutdown sidecar: stdin write failed, kill failed",
            ⟨none⟩, [.write p shutdown_cmd, .kill p])
      else
        (.ok "Sidecar shutdown completed.", ⟨none⟩,
          [.write p shutdown_cmd, .sleepMs 500, .kill p])
    | none => (.error "No active sidecar process to shutdown.", ⟨none⟩, [])

/-- The fixed list of well-known sidecar ports (lib.rs 84). -/
def sidecar_ports : List Nat := [8008, 8009, 8010, 8011, 8012]

/-- Decoded stdout text of `lsof -ti :<port>` for each port; `none` when the
`lsof` invocation itself fails (lib.rs 88-91). -/
abbrev LsofOut := Nat → Option String

/-- Rust `str::trim` on a character list: strip leading and trailing
whitespace. -/
def rustTrim (cs : List Char) : List Char :=
  ((cs.dropWhile Char.isWhitespace).reverse.dropWhile Char.isWhitespace).reverse

/-- Rust `str::split(sep)` on a character list: split at every occurrence of
the separator, keeping empty pieces. -/
def rustSplit (sep : Char) : List Char → List (List Char)
  | [] => [[]]
  | c :: cs =>
    if c = sep then [] :: rustSplit sep cs
    else
      match rustSplit sep cs with
      | [] => [[c]]
      | piece :: pieces => (c :: piece) :: pieces

/-- Rust `str::parse::<u32>()` on a character list: an optional leading plus
sign, then one or more ASCII digits, with the value below `2 ^ 32`. -/
def parseU32 (cs : List Char) : Option Nat :=
  let ds := match cs with
    | '+' :: rest => rest
    | _ => cs
  if ds.isEmpty then none
  else if ds.all Char.isDigit then
    let n := ds.foldl (fun acc c => acc * 10 + (c.toNat - 48)) 0
    if n < 2 ^ 32 then some n else none
  else none

/-- Rust `cleanup_sidecar_ports` (lib.rs 81-105): for each fixed port, trim
and split the `lsof` output into lines, parse each non-empty line as a `u32`
pid, and issue `kill -9` for every parsed pid.  Parse failures and `lsof`
failures are skipped silently; kill results are ignored. -/
def cleanup_sidecar_ports (lsofOut : LsofOut) : List Action :=
  sidecar_ports.flatMap (fun port =>
    match lsofOut port with
    | none => []
    | some out =>
      ((rustSplit '\n' (rustTrim out.data)).filter (fun t => !t.isEmpty)).flatMap
        (fun pidStr =>
          match parseU32 pidStr with
          | some n => [Action.sweepKill n]
          | none => []))

/-- Rust `cleanup_sidecar_process` (lib.rs 39-78): the stop path used by the
window close/destroy and application exit triggers.  Every failure (missing
state, lock failure, write failure, kill failure) is only logged; the written
command, the 500 ms grace sleep (only after a successful write), the
unconditional kill, and the 200 ms post-kill sleep (only after a successful
kill) appear in the trace; the port sweep always runs at the end. -/
def cleanup_sidecar_process (env : StopEnv) (lsofOut : LsofOut)
    (s : SidecarProcess) : SidecarProcess × List Action :=
  let (s1, acts) :=
    if env.stateManaged = false then (s, [])
    else if env.lockOk = false then (s, [])
    else
      match s.process with
      | some p =>
        let pre := if env.writeOk then
            [Action.write p shutdown_cmd, Action.sleepMs 500]
          else [Action.write p shutdown_cmd]
        let post := if env.killOk then [Action.sleepMs 200] else []
        (⟨none⟩, pre ++ [Action.kill p] ++ post)
      | none => (⟨none⟩, [])
  (s1, acts ++ cleanup_sidecar_ports lsofOut)

/-- Environment for `spawn_and_monitor_sidecar`: whether the managed state is
found by `try_state`, the result of resolving the sidecar command, and the
result of spawning (the fresh child pid on success). -/
structure StartEnv where
  stateManaged : Bool
  sidecarCmd : Except String Unit
  spawnRes : Except String Pid

/-- Rust `spawn_and_monitor_sidecar` (lib.rs 121-170): if the managed state
holds a process, skip spawning and succeed; otherwise resolve the sidecar
command, spawn the child, and store it via `set_process` (erroring — after
the spawn — when the managed state cannot be found). -/
def spawn_and_monitor_sidecar (env : StartEnv) (s : SidecarProcess) :
    Except String Unit × SidecarProcess × List Action :=
  if env.stateManaged && s.has_process then (.ok (), s, [])
  else
    match env.sidecarCmd with
    | .error e => (.error e, s, [])
    | .ok _ =>
      match env.spawnRes with
      | .error e => (.error e, s, [])
      | .ok child =>
        if env.stateManaged then
          (.ok (), s.set_process child, [.spawn child])
        else
          (.error "Failed to access app state", s, [.spawn child])

/-- Rust command `start_sidecar` (lib.rs 221-226): run
`spawn_and_monitor_sidecar` and map success to the fixed message. -/
def start_sidecar (env : StartEnv) (s : SidecarProcess) :
    Except String String × SidecarProcess × List Action :=
  match spawn_and_monitor_sidecar env s with
  | (.ok _, s1, acts) => (.ok "Sidecar spawned and monitoring started.", s1, acts)
  | (.error e, s1, acts) => (.error e, s1, acts)

/-! ### Output relay -/

/-- Whether a byte is a UTF-8 continuation byte (`0x80..=0xBF`). -/
def utf8_cont (b : Nat) : Bool := 0x80 ≤ b && b ≤ 0xBF

/-- Allowed second byte of a three-byte sequence with lead `b`, per the
byte-range table of UTF-8 validation (`0xE0` excludes overlong encodings,
`0xED` excludes surrogates). -/
def utf8_second3 (b b1 : Nat) : Bool :=
  (b = 0xE0 && 0xA0 ≤ b1 && b1 ≤ 0xBF) ||
  (b = 0xED && 0x80 ≤ b1 && b1 ≤ 0x9F) ||
  (!(b = 0xE0) && !(b = 0xED) && utf8_cont b1)

/-- Allowed second byte of a four-byte sequence with lead `b` (`0xF0`
excludes overlong encodings, `0xF4` excludes values above U+10FFFF). -/
def utf8_second4 (b b1 : Nat) : Bool :=
  (b = 0xF0 && 0x90 ≤ b1 && b1 ≤ 0xBF) ||
  (b = 0xF4 && 0x80 ≤ b1 && b1 ≤ 0x8F) ||
  (!(b = 0xF0) && !(b = 0xF4) && utf8_cont b1)

/-- Decode one Unicode scalar from the head of a UTF-8 byte stream (lead
byte `b`, following bytes `rest`): return the decoded value and the
remaining input.  On an ill-formed sequence the maximal valid prefix is
consumed and replaced by one U+FFFD, and decoding resumes at the offending
byte — the substitution-of-maximal-subparts policy Rust documents for
`String::from_utf8_lossy`. -/
def utf8_decode1 (b : Nat) (rest : List Nat) : Nat × List Nat :=
  if b ≤ 0x7F then (b, rest)
  else if 0xC2 ≤ b && b ≤ 0xDF then
    match rest with
    | b1 :: r1 =>
      if utf8_cont b1 then ((b - 0xC0) * 0x40 + (b1 - 0x80), r1)
      else (0xFFFD, b1 :: r1)
    | [] => (0xFFFD, [])
  else if 0xE0 ≤ b && b ≤ 0xEF then
    match rest with
    | b1 :: r1 =>
      if utf8_second3 b b1 then
        match r1 with
        | b2 :: r2 =>
          if utf8_cont b2 then
            ((b - 0xE0) * 0x1000 + (b1 - 0x80) * 0x40 + (b2 - 0x80), r2)
          else (0xFFFD, b2 :: r2)
        | [] => (0xFFFD, [])
      else (0xFFFD, b1 :: r1)
    | [] => (0xFFFD, [])
  else if 0xF0 ≤ b && b ≤ 0xF4 then
    match rest with
    | b1 :: r1 =>
      if utf8_second4 b b1 then
        match r1 with
        | b2 :: r2 =>
          if utf8_cont b2 then
            match r2 with
            | b3 :: r3 =>
              if utf8_cont b3 then
                ((b - 0xF0) * 0x40000 + (b1 - 0x80) * 0x1000 +
                  (b2 - 0x80) * 0x40 + (b3 - 0x80), r3)
              else (0xFFFD, b3 :: r3)
            | [] => (0xFFFD, [])
          else (0xFFFD, b2 :: r2)
        | [] => (0xFFFD, [])
      else (0xFFFD, b1 :: r1)
    | [] => (0xFFFD, [])
  else (0xFFFD, rest)

/-- `utf8_decode1` never lengthens the remaining input. -/
lemma utf8_decode1_length (b : Nat) (rest : List Nat) :
    (utf8_decode1 b rest).2.length ≤ rest.length := by
  rcases rest with _ | ⟨b1, _ | ⟨b2, _ | ⟨b3, r3⟩⟩⟩ <;>
    simp only [utf8_decode1] <;> split_ifs <;> simp_arith

/-- Rust `String::from_utf8_lossy` (lib.rs 149 and 157) on a byte list,
producing the decoded Unicode scalar values (invalid sequences replaced by
U+FFFD, never a failure). -/
def from_utf8_lossy : List Nat → List Nat
  | [] => []
  | b :: rest =>
    (utf8_decode1 b rest).1 :: from_utf8_lossy (utf8_decode1 b rest).2
termination_by l => l.length
decreasing_by
  simp only [List.length_cons]
  exact Nat.lt_succ_of_le (utf8_decode1_length _ _)

/-- The `CommandEvent` variants matched by the monitor loop (lib.rs 147-164):
line-buffered stdout/stderr payloads, plus the other events the loop
ignores. -/
inductive CommandEvent where
  | stdout (lineBytes : List Nat)
  | stderr (lineBytes : List Nat)
  | other
deriving Repr, DecidableEq

/-- The async monitor loop spawned by `spawn_and_monitor_sidecar`
(lib.rs 145-167): drain the event channel until it closes, lossily decode
each stdout/stderr line, and emit it on the frontend channel matching its
stream.  Emissions are (event channel name, decoded scalar values), in
order. -/
def sidecar_monitor : List CommandEvent → List (String × List Nat)
  | [] => []
  | CommandEvent.stdout b :: es =>
    ("sidecar-stdout", from_utf8_lossy b) :: sidecar_monitor es
  | CommandEvent.stderr b :: es =>
    ("sidecar-stderr", from_utf8_lossy b) :: sidecar_monitor es
  | CommandEvent.other :: es => sidecar_monitor es

/-- Modelled from the spec (OutputRelay contract): each output line is
decoded as text, classified by its source stream, and forwarded on the event
channel for that stream kind; other events produce nothing. -/
def relaySpec : CommandEvent → Option (String × List Nat)
  | CommandEvent.stdout b => some ("sidecar-stdout", from_utf8_lossy b)
  | CommandEvent.stderr b => some ("sidecar-stderr", from_utf8_lossy b)
  | CommandEvent.other => none

/-- A Unicode scalar value: below the surrogate range or above it and at
most U+10FFFF. -/
def ValidScalar (c : Nat) : Prop := c < 0xD800 ∨ (0xE000 ≤ c ∧ c ≤ 0x10FFFF)

/-! ### Sequential lifecycle model -/

/-- OS-level effect of one supervisor action on the set of live worker
processes: `spawn` creates, `kill` and `sweepKill` terminate (a kill of an
already-dead pid is a no-op), writes and sleeps change nothing. -/
def applyAction (l : List Pid) : Action → List Pid
  | .spawn p => l ++ [p]
  | .kill p => l.filter (fun q => q != p)
  | .sweepKill p => l.filter (fun q => q != p)
  | .write _ _ => l
  | .sleepMs _ => l

/-- Fold `applyAction` over a trace. -/
def applyActions (l : List Pid) (acts : List Action) : List Pid :=
  acts.foldl applyAction l

/-- Whole-system state for sequential start/stop sequences: the managed
slot, the set of live worker pids, and a fresh-pid counter. -/
structure World where
  slot : SidecarProcess
  live : List Pid
  next : Pid
deriving Repr, DecidableEq

/-- A stop environment in which every OS interaction succeeds. -/
def okStopEnv : StopEnv := ⟨true, true, true, true⟩

/-- An `lsof` view with no listeners on any port. -/
def noListeners : LsofOut := fun _ => some ""

/-- A start environment in which every OS interaction succeeds and the
spawn yields the given fresh pid. -/
def okStartEnv (fresh : Pid) : StartEnv := ⟨true, .ok (), .ok fresh⟩

/-- A lifecycle operation: the start command or an event-triggered stop. -/
inductive Op where
  | start
  | stop
deriving Repr, DecidableEq

/-- One sequential lifecycle step: `start` runs `start_sidecar` with a fresh
pid, `stop` runs `cleanup_sidecar_process`; the issued action trace updates
the live-process set. -/
def stepOp (w : World) : Op → World
  | .start =>
    match start_sidecar (okStartEnv w.next) w.slot with
    | (_, s1, acts) => ⟨s1, applyActions w.live acts, w.next + 1⟩
  | .stop =>
    match cleanup_sidecar_process okStopEnv noListeners w.slot with
    | (s1, acts) => ⟨s1, applyActions w.live acts, w.next⟩

/-- Run a sequence of lifecycle operations. -/
def runOps (w : World) : List Op → World
  | [] => w
  | op :: ops => runOps (stepOp w op) ops

/-- The initial world: empty slot (lib.rs 237), no live worker. -/
def world0 : World := ⟨SidecarProcess.new, [], 0⟩

/-- The sequential-model invariant: the live worker processes are exactly
the content of the slot. -/
def WorldInv (w : World) : Prop :=
  w.live = match w.slot.process with
    | some p => [p]
    | none => []

/-! ### Concurrent stop serialization -/

/-- One concurrent stop trigger: either the explicit `shutdown_sidecar`
command (`isCommand = true`) or an event-driven `cleanup_sidecar_process`
call, with its environment.  In the code the mutex guard is held for the
whole body of either function, so concurrent calls are serialized by the
lock into some total order. -/
structure StopCall where
  isCommand : Bool
  env : StopEnv
  lsofOut : LsofOut

/-- Execute one stop trigger on the shared slot, returning its result
(`none` for the event path, which returns no value), the slot afterwards,
and its action trace. -/
def runStopCall (c : StopCall) (s : SidecarProcess) :
    Option (Except String String) × SidecarProcess × List Action :=
  if c.isCommand then
    match shutdown_sidecar c.env s with
    | (r, s1, acts) => (some r, s1, acts)
  else
    match cleanup_sidecar_process c.env c.lsofOut s with
    | (s1, acts) => (none, s1, acts)

/-- Execute a lock-serialized sequence of concurrent stop triggers, pairing
each with its result and trace. -/
def runStops (s : SidecarProcess) :
    List StopCall → List (Option (Except String String) × List Action)
  | [] => []
  | c :: cs =>
    match runStopCall c s with
    | (r, s1, acts) => (r, acts) :: runStops s1 cs

/-- A port view with pid 99 listening on port 8008 and nothing else. -/
def lsof99 : LsofOut := fun port => if port = 8008 then some "99" else some ""

/-! ### Helper lemmas -/

/-- Every action issued by the port sweep is a `sweepKill`. -/
lemma cleanup_ports_only_sweep (lsofOut : LsofOut) (a : Action)
    (ha : a ∈ cleanup_sidecar_ports lsofOut) : ∃ n, a = Action.sweepKill n := by
  simp only [cleanup_sidecar_ports, List.mem_flatMap] at ha
  obtain ⟨port, _, ha⟩ := ha
  cases h : lsofOut port with
  | none => rw [h] at ha; simp at ha
  | some out =>
    rw [h] at ha
    simp only [List.mem_flatMap] at ha
    obtain ⟨pidStr, _, ha⟩ := ha
    cases hp : parseU32 pidStr with
    | none => rw [hp] at ha; simp at ha
    | some n => rw [hp] at ha; simp at ha; exact ⟨n, ha⟩

/-- If a worker is already tracked, `start_sidecar` succeeds with the fixed
message, leaves the slot alone, and issues no OS action. -/
lemma start_sidecar_noop (env : StartEnv) (s : SidecarProcess)
    (hs : env.stateManaged = true) (hp : s.has_process = true) :
    start_sidecar env s = (.ok "Sidecar spawned and monitoring started.", s, []) := by
  simp [start_sidecar, spawn_and_monitor_sidecar, hs, hp]

/-- With the state managed and the lock available, `start_sidecar` on an
empty slot spawns the fresh child, stores it, and succeeds with the fixed
message. -/
lemma start_sidecar_spawns (env : StartEnv) (q : Pid)
    (hs : env.stateManaged = true) (hcmd : env.sidecarCmd = .ok ())
    (hspawn : env.spawnRes = .ok q) :
    start_sidecar env ⟨none⟩ =
      (.ok "Sidecar spawned and monitoring started.", ⟨some q⟩, [.spawn q]) := by
  simp [start_sidecar, spawn_and_monitor_sidecar, hs, hcmd, hspawn,
    SidecarProcess.has_process, SidecarProcess.set_process]

/-! ### C3 — stop with no worker present -/

/-- C3 counterexample: with the state managed and the lock available but no
worker present, the `shutdown_sidecar` stop command returns an error — it
does not succeed — contradicting the claim that stop() with no process
present never returns an error. -/
theorem shutdown_absent_errors :
    (shutdown_sidecar okStopEnv ⟨none⟩).1 =
      .error "No active sidecar process to shutdown." := by
  rfl

/-- C3 amended: with no worker present, the event-driven stop path
`cleanup_sidecar_process` performs no process action, leaves the slot absent
and completes without any error (it only runs the port sweep), while the
`shutdown_sidecar` command instead returns the error string shown, likewise
leaving the slot absent. -/
theorem stop_absent_behavior (env : StopEnv) (lsofOut : LsofOut)
    (hs : env.stateManaged = true) (hl : env.lockOk = true) :
    shutdown_sidecar env ⟨none⟩ =
      (.error "No active sidecar process to shutdown.", ⟨none⟩, [])
    ∧ cleanup_sidecar_process env lsofOut ⟨none⟩ =
      (⟨none⟩, cleanup_sidecar_ports lsofOut) := by
  constructor
  · simp [shutdown_sidecar, hs, hl]
  · simp [cleanup_sidecar_process, hs, hl]

/-- C3 witness for `stop_absent_behavior` at a concrete environment. -/
theorem stop_absent_behavior_witness :
    cleanup_sidecar_process okStopEnv noListeners ⟨none⟩ =
      (⟨none⟩, cleanup_sidecar_ports noListeners) :=
  (stop_absent_behavior okStopEnv noListeners rfl rfl).2

/-! ### C4 — the slot-install operation -/

/-- C4 counterexample: `set_process` on a slot already holding handle 1
installs handle 2 anyway, overwriting the slot — it does not install only
when the slot is empty, and it reports nothing. -/
theorem set_process_installs_when_full :
    SidecarProcess.set_process ⟨some 1⟩ 2 = ⟨some 2⟩
    ∧ SidecarProcess.set_process ⟨some 1⟩ 2 ≠ ⟨some 1⟩ := by
  exact ⟨rfl, by decide⟩

/-- C4 amended: the slot-install operation `set_process` used by start()
unconditionally stores the new handle, overwriting (and dropping, without
terminating) whatever the slot held; start() avoids duplicate installs only
through the separate prior `has_process` check, which skips spawning
entirely, and no code path terminates a newly spawned process after a lost
install race. -/
theorem set_process_unconditional (s : SidecarProcess) (p : Pid)
    (env : StartEnv) (hs : env.stateManaged = true)
    (hp : s.has_process = true) :
    s.set_process p = ⟨some p⟩
    ∧ spawn_and_monitor_sidecar env s = (.ok (), s, []) := by
  constructor
  · rfl
  · simp [spawn_and_monitor_sidecar, hs, hp]

/-- C4 witness for `set_process_unconditional` at a concrete input. -/
theorem set_process_unconditional_witness :
    SidecarProcess.set_process ⟨some 3⟩ 4 = ⟨some 4⟩
    ∧ spawn_and_monitor_sidecar (okStartEnv 4) ⟨some 3⟩ =
        (.ok (), ⟨some 3⟩, []) :=
  set_process_unconditional ⟨some 3⟩ 4 (okStartEnv 4) rfl rfl

/-! ### C5 — write failure escalates to forced termination -/

/-- C5: if the stdin write fails during stop(), both stop paths still issue
the kill signal within the same call (with no grace sleep before it), the
slot is emptied, and on successful kill the `shutdown_sidecar` command
completes with the distinct forced-termination message. -/
theorem write_failure_escalates (env : StopEnv) (p : Pid) (lsofOut : LsofOut)
    (hs : env.stateManaged = true) (hl : env.lockOk = true)
    (hw : env.writeOk = false) :
    (shutdown_sidecar env ⟨some p⟩).2.2 = [.write p shutdown_cmd, .kill p]
    ∧ (shutdown_sidecar env ⟨some p⟩).2.1 = ⟨none⟩
    ∧ (env.killOk = true →
        (shutdown_sidecar env ⟨some p⟩).1 = .ok "Sidecar forcefully terminated.")
    ∧ (cleanup_sidecar_process env lsofOut ⟨some p⟩).2 =
        [Action.write p shutdown_cmd, Action.kill p]
          ++ (if env.killOk then [Action.sleepMs 200] else [])
          ++ cleanup_sidecar_ports lsofOut := by
  obtain ⟨sm, lk, wo, ko⟩ := env
  simp only at hs hl hw
  subst hs; subst hl; subst hw
  cases ko <;>
    simp [shutdown_sidecar, cleanup_sidecar_process]

/-- C5 witness for `write_failure_escalates` at a concrete environment. -/
theorem write_failure_escalates_witness :
    (shutdown_sidecar ⟨true, true, false, true⟩ ⟨some 1⟩).2.2 =
      [.write 1 shutdown_cmd, .kill 1]
    ∧ (shutdown_sidecar ⟨true, true, false, true⟩ ⟨some 1⟩).1 =
      .ok "Sidecar forcefully terminated." := by
  have h := write_failure_escalates ⟨true, true, false, true⟩ 1 noListeners
    rfl rfl rfl
  exact ⟨h.1, h.2.2.1 rfl⟩

/-! ### C6 — write, wait, kill, strictly in order -/

/-- C6: on a present worker whose stdin write succeeds, stop() issues
exactly, and in this order: the fixed shutdown command write, the fixed
500 ms grace sleep, and then the kill signal — unconditionally, whatever the
kill outcome `env.killOk` (a failed kill of an already-exited process leaves
the command's successful result unchanged).  The event-driven path issues
the same three actions in the same order before its sweep. -/
theorem stop_write_wait_kill_order (env : StopEnv) (p : Pid)
    (lsofOut : LsofOut) (hs : env.stateManaged = true)
    (hl : env.lockOk = true) (hw : env.writeOk = true) :
    shutdown_sidecar env ⟨some p⟩ =
      (.ok "Sidecar shutdown completed.", ⟨none⟩,
        [.write p shutdown_cmd, .sleepMs 500, .kill p])
    ∧ (cleanup_sidecar_process env lsofOut ⟨some p⟩).2 =
        [Action.write p shutdown_cmd, Action.sleepMs 500, Action.kill p]
          ++ (if env.killOk then [Action.sleepMs 200] else [])
          ++ cleanup_sidecar_ports lsofOut := by
  obtain ⟨sm, lk, wo, ko⟩ := env
  simp only at hs hl hw
  subst hs; subst hl; subst hw
  cases ko <;>
    simp [shutdown_sidecar, cleanup_sidecar_process]

/-- C6 witness for `stop_write_wait_kill_order` in the environment where the
kill signal fails (the process already exited during the wait): the command
still reports success and the trace is unchanged. -/
theorem stop_write_wait_kill_order_witness :
    shutdown_sidecar ⟨true, true, true, false⟩ ⟨some 2⟩ =
      (.ok "Sidecar shutdown completed.", ⟨none⟩,
        [.write 2 shutdown_cmd, .sleepMs 500, .kill 2]) :=
  (stop_write_wait_kill_order ⟨true, true, true, false⟩ 2 noListeners
    rfl rfl rfl).1

/-! ### C7 — failure absorption inside the shutdown sequence -/

/-- C7 counterexample: a failed mutex acquisition inside `shutdown_sidecar`
is propagated to the caller as an error, not treated as nothing-to-do,
contradicting the claim that every failure inside the shutdown sequence is
absorbed into an outcome rather than propagated. -/
theorem shutdown_lock_failure_errors :
    shutdown_sidecar ⟨true, false, true, true⟩ ⟨some 1⟩ =
      (.error "[tauri] Failed to acquire lock on sidecar process.",
        ⟨some 1⟩, []) := by
  rfl

/-- C7 amended: a failed kill after a successful graceful write is absorbed
and `shutdown_sidecar` still reports success, and `cleanup_sidecar_process`
absorbs a failed lock acquisition as nothing-to-do (only the sweep runs);
but `shutdown_sidecar` propagates a failed lock acquisition to its caller as
an error. -/
theorem shutdown_failure_absorption (env : StopEnv) (p : Pid)
    (lsofOut : LsofOut) (hs : env.stateManaged = true) :
    (env.lockOk = true → env.writeOk = true →
      (shutdown_sidecar env ⟨some p⟩).1 = .ok "Sidecar shutdown completed.")
    ∧ (env.lockOk = false →
      (shutdown_sidecar env ⟨some p⟩).1 =
        .error "[tauri] Failed to acquire lock on sidecar process.")
    ∧ (env.lockOk = false →
      cleanup_sidecar_process env lsofOut ⟨some p⟩ =
        (⟨some p⟩, cleanup_sidecar_ports lsofOut)) := by
  obtain ⟨sm, lk, wo, ko⟩ := env
  simp only at hs
  subst hs
  cases lk <;> cases wo <;> cases ko <;>
    refine ⟨fun hl hw => ?_, fun hl => ?_, fun hl => ?_⟩ <;>
      simp_all [shutdown_sidecar, cleanup_sidecar_process]

/-- C7 witness for `shutdown_failure_absorption`: a failed kill after a
successful write is absorbed as success. -/
theorem shutdown_failure_absorption_witness :
    (shutdown_sidecar ⟨true, true, true, false⟩ ⟨some 7⟩).1 =
      .ok "Sidecar shutdown completed." :=
  (shutdown_failure_absorption ⟨true, true, true, false⟩ 7 noListeners
    rfl).1 rfl rfl

/-- A suffix of a list is a suffix of any cons extension of it. -/
lemma suffix_cons_of_suffix (a : Action) {l1 l2 : List Action}
    (h : l1 <:+ l2) : l1 <:+ a :: l2 :=
  h.trans (List.suffix_cons a l2)

/-! ### C8 — the environment sweep -/

/-- C8 counterexample: with pid 99 listening on port 8008, a
`shutdown_sidecar` stop invocation issues only the write/sleep/kill of the
tracked worker and no sweep kill at all, while `cleanup_sidecar_process`
under the same circumstances does sweep-kill 99 — so the sweep does not run
after every stop invocation. -/
theorem shutdown_command_never_sweeps :
    (shutdown_sidecar okStopEnv ⟨some 1⟩).2.2 =
      [.write 1 shutdown_cmd, .sleepMs 500, .kill 1]
    ∧ Action.sweepKill 99 ∈ (cleanup_sidecar_process okStopEnv lsof99 ⟨some 1⟩).2
    ∧ Action.sweepKill 99 ∉ (shutdown_sidecar okStopEnv ⟨some 1⟩).2.2 := by
  refine ⟨rfl, by decide, by decide⟩

/-- C8 amended: the port sweep runs at the end of every
`cleanup_sidecar_process` invocation — on every path, whatever the
environment and slot state — scanning the fixed ports and issuing a kill for
every pid reported listening; the `shutdown_sidecar` command never performs
any sweep kill. -/
theorem cleanup_always_sweeps (env env2 : StopEnv) (lsofOut : LsofOut)
    (s s2 : SidecarProcess) (q : Pid) :
    cleanup_sidecar_ports lsofOut <:+ (cleanup_sidecar_process env lsofOut s).2
    ∧ Action.sweepKill q ∉ (shutdown_sidecar env2 s2).2.2 := by
  constructor
  · obtain ⟨sm, lk, wo, ko⟩ := env
    obtain ⟨sp⟩ := s
    cases sm <;> cases lk <;> cases sp <;> cases wo <;> cases ko <;>
      simp [cleanup_sidecar_process] <;>
        (repeat apply suffix_cons_of_suffix) <;> exact List.suffix_refl _
  · obtain ⟨sm, lk, wo, ko⟩ := env2
    obtain ⟨sp⟩ := s2
    cases sm <;> cases lk <;> cases sp <;> cases wo <;> cases ko <;>
      simp [shutdown_sidecar]

/-! ### C10 — identical success message on both start paths -/

/-- C10: `start_sidecar` returns the identical success message both when it
actually spawns a fresh worker (empty slot: the trace contains the spawn)
and when it skips spawning because a worker is tracked (trace empty), so the
returned value cannot distinguish the two. -/
theorem start_message_indistinguishable (env : StartEnv) (p q : Pid)
    (hs : env.stateManaged = true) (hcmd : env.sidecarCmd = .ok ())
    (hspawn : env.spawnRes = .ok q) :
    start_sidecar env ⟨none⟩ =
      (.ok "Sidecar spawned and monitoring started.", ⟨some q⟩, [.spawn q])
    ∧ start_sidecar env ⟨some p⟩ =
      (.ok "Sidecar spawned and monitoring started.", ⟨some p⟩, []) := by
  exact ⟨start_sidecar_spawns env q hs hcmd hspawn,
    start_sidecar_noop env ⟨some p⟩ hs rfl⟩

/-- C10 witness for `start_message_indistinguishable` at a concrete
environment. -/
theorem start_message_indistinguishable_witness :
    start_sidecar (okStartEnv 0) ⟨none⟩ =
      (.ok "Sidecar spawned and monitoring started.", ⟨some 0⟩, [.spawn 0])
    ∧ start_sidecar (okStartEnv 0) ⟨some 1⟩ =
      (.ok "Sidecar spawned and monitoring started.", ⟨some 1⟩, []) :=
  start_message_indistinguishable (okStartEnv 0) 1 0 rfl rfl rfl

/-! ### C9 — the output relay -/

/-- Every value produced by one decoding step is a Unicode scalar value:
decoding never fails, and ill-formed input only ever yields the U+FFFD
replacement character. -/
lemma utf8_decode1_valid (b : Nat) (rest : List Nat) :
    ValidScalar (utf8_decode1 b rest).1 := by
  rcases rest with _ | ⟨b1, _ | ⟨b2, _ | ⟨b3, r3⟩⟩⟩ <;>
    simp only [utf8_decode1] <;> split_ifs <;>
      simp_all [ValidScalar, utf8_cont, utf8_second3, utf8_second4] <;>
        omega

/-- Every value produced by the lossy decoder is a Unicode scalar value. -/
lemma from_utf8_lossy_valid (l : List Nat) :
    ∀ c ∈ from_utf8_lossy l, ValidScalar c := by
  induction l using from_utf8_lossy.induct with
  | case1 => intro c hc; simp [from_utf8_lossy] at hc
  | case2 b rest ih =>
    intro c hc
    rw [from_utf8_lossy] at hc
    rcases List.mem_cons.mp hc with rfl | hc
    · exact utf8_decode1_valid b rest
    · exact ih c hc

/-- C9: the monitor loop forwards exactly the stdout/stderr lines of the
worker, in the order received until the channel closes, each decoded by the
lossy UTF-8 decoder and emitted on the event channel named for its source
stream (this is `filterMap relaySpec`, the spec-side relay contract); and
decoding is never fatal — every decoded value is a valid Unicode scalar,
ill-formed bytes becoming U+FFFD. -/
theorem output_relay_forwards_lines (es : List CommandEvent) (b : List Nat)
    (c : Nat) (hc : c ∈ from_utf8_lossy b) :
    sidecar_monitor es = es.filterMap relaySpec ∧ ValidScalar c := by
  constructor
  · induction es with
    | nil => rfl
    | cons e es ih => cases e <;> simp [sidecar_monitor, relaySpec, ih]
  · exact from_utf8_lossy_valid b c hc

/-- C9 witness for `output_relay_forwards_lines` on a concrete event list
holding one stdout line of invalid bytes: the single emissions list and the
replacement character. -/
theorem output_relay_forwards_lines_witness :
    sidecar_monitor [CommandEvent.stdout [0xFF], CommandEvent.other] =
      [CommandEvent.stdout [0xFF], CommandEvent.other].filterMap relaySpec
    ∧ ValidScalar 0xFFFD := by
  refine output_relay_forwards_lines _ [0xFF] 0xFFFD ?_
  simp [from_utf8_lossy, utf8_decode1, utf8_cont]

/-! ### C1 — at most one worker in any start/stop sequence -/

/-- The sweep with no listeners issues nothing. -/
lemma cleanup_ports_noListeners : cleanup_sidecar_ports noListeners = [] := by
  decide

/-- Each sequential lifecycle step preserves the invariant that the live
worker processes are exactly the slot content. -/
lemma inv_step (w : World) (hw : WorldInv w) (op : Op) :
    WorldInv (stepOp w op) := by
  obtain ⟨⟨sp⟩, live, next⟩ := w
  unfold WorldInv at hw
  simp only at hw
  cases op with
  | start =>
    cases sp with
    | none =>
      subst hw
      simp [stepOp, start_sidecar, spawn_and_monitor_sidecar, okStartEnv,
        SidecarProcess.has_process, SidecarProcess.set_process,
        applyActions, applyAction, WorldInv]
    | some p =>
      subst hw
      simp [stepOp, start_sidecar, spawn_and_monitor_sidecar, okStartEnv,
        SidecarProcess.has_process, applyActions, WorldInv]
  | stop =>
    cases sp with
    | none =>
      subst hw
      simp [stepOp, cleanup_sidecar_process, okStopEnv,
        cleanup_ports_noListeners, applyActions, WorldInv]
    | some p =>
      subst hw
      simp [stepOp, cleanup_sidecar_process, okStopEnv,
        cleanup_ports_noListeners, applyActions, applyAction, WorldInv]

/-- The invariant holds after any operation sequence from an invariant
state. -/
lemma inv_runOps (ops : List Op) :
    ∀ w, WorldInv w → WorldInv (runOps w ops) := by
  induction ops with
  | nil => exact fun w hw => hw
  | cons op ops ih => exact fun w hw => ih _ (inv_step w hw op)

/-- Running an appended sequence runs the pieces in order. -/
lemma runOps_append (w : World) (l1 l2 : List Op) :
    runOps w (l1 ++ l2) = runOps (runOps w l1) l2 := by
  induction l1 generalizing w with
  | nil => rfl
  | cons op l1 ih => simp [runOps, ih]

/-- A stop step from an invariant state leaves no live worker process. -/
lemma stop_clears (w : World) (hw : WorldInv w) :
    (stepOp w Op.stop).live = [] := by
  obtain ⟨⟨sp⟩, live, next⟩ := w
  unfold WorldInv at hw
  simp only at hw
  cases sp with
  | none =>
    subst hw
    simp [stepOp, cleanup_sidecar_process, okStopEnv,
      cleanup_ports_noListeners, applyActions]
  | some p =>
    subst hw
    simp [stepOp, cleanup_sidecar_process, okStopEnv,
      cleanup_ports_noListeners, applyActions, applyAction]

/-- In an invariant state at most one worker process is live. -/
lemma live_length_le_one (w : World) (hw : WorldInv w) :
    w.live.length ≤ 1 := by
  unfold WorldInv at hw
  cases h : w.slot.process <;> rw [h] at hw <;> simp [hw]

/-- C1: for every sequence of interleaved start()/stop() calls from the
initial state, at most one OS worker process is live at any point; after a
sequence ending in stop() no worker process survives; and when a worker is
tracked, a further start() is a no-op that returns the success message,
issues no OS action, and leaves the slot (hence the process set)
unchanged. -/
theorem start_stop_single_process (ops : List Op) :
    (runOps world0 ops).live.length ≤ 1
    ∧ (runOps world0 (ops ++ [Op.stop])).live = []
    ∧ ((runOps world0 ops).slot.has_process = true →
        start_sidecar (okStartEnv (runOps world0 ops).next)
            (runOps world0 ops).slot =
          (.ok "Sidecar spawned and monitoring started.",
            (runOps world0 ops).slot, [])) := by
  have hinv : WorldInv (runOps world0 ops) :=
    inv_runOps ops world0 (by simp [WorldInv, world0, SidecarProcess.new])
  refine ⟨live_length_le_one _ hinv, ?_, ?_⟩
  · rw [runOps_append]
    exact stop_clears _ hinv
  · intro hp
    exact start_sidecar_noop _ _ rfl hp

/-- C1 witness for `start_stop_single_process`: after one start, a second
start is a no-op returning the success message. -/
theorem start_stop_single_process_witness :
    start_sidecar (okStartEnv (runOps world0 [Op.start]).next)
        (runOps world0 [Op.start]).slot =
      (.ok "Sidecar spawned and monitoring started.",
        (runOps world0 [Op.start]).slot, []) :=
  (start_stop_single_process [Op.start]).2.2 (by decide)

/-! ### C2 — concurrent stop calls are serialized with one winner -/

/-- A lock-serialized stop trigger executed on a slot holding worker `p`
empties the slot and both writes to and kills `p`. -/
lemma runStopCall_present (c : StopCall) (p : Pid)
    (hs : c.env.stateManaged = true) (hl : c.env.lockOk = true) :
    (runStopCall c ⟨some p⟩).2.1 = ⟨none⟩
    ∧ Action.kill p ∈ (runStopCall c ⟨some p⟩).2.2
    ∧ Action.write p shutdown_cmd ∈ (runStopCall c ⟨some p⟩).2.2 := by
  obtain ⟨ic, ⟨sm, lk, wo, ko⟩, lsofOut⟩ := c
  simp only at hs hl
  subst hs; subst hl
  cases ic <;> cases wo <;> cases ko <;>
    simp [runStopCall, shutdown_sidecar, cleanup_sidecar_process]

/-- A lock-serialized stop trigger executed on an empty slot acts on no
handle: it issues no write and no kill of any handle (only possibly sweep
kills), leaves the slot empty, and its result is either nothing (event
path) or the no-active-process error (command path). -/
lemma runStopCall_absent (c : StopCall) (p : Pid)
    (hs : c.env.stateManaged = true) (hl : c.env.lockOk = true) :
    (runStopCall c ⟨none⟩).2.1 = ⟨none⟩
    ∧ Action.kill p ∉ (runStopCall c ⟨none⟩).2.2
    ∧ Action.write p shutdown_cmd ∉ (runStopCall c ⟨none⟩).2.2
    ∧ ((runStopCall c ⟨none⟩).1 = none ∨
        (runStopCall c ⟨none⟩).1 =
          some (.error "No active sidecar process to shutdown.")) := by
  obtain ⟨ic, ⟨sm, lk, wo, ko⟩, lsofOut⟩ := c
  simp only at hs hl
  subst hs; subst hl
  cases ic with
  | false =>
    refine ⟨by simp [runStopCall, cleanup_sidecar_process], ?_, ?_,
      Or.inl (by simp [runStopCall])⟩ <;>
    · intro hmem
      simp only [runStopCall, cleanup_sidecar_process] at hmem
      simp at hmem
      obtain ⟨n, hn⟩ := cleanup_ports_only_sweep lsofOut _ hmem
      simp at hn
  | true => simp [runStopCall, shutdown_sidecar]

/-- Every lock-serialized stop trigger running after the slot has been
emptied acts on no handle and observes the absence. -/
lemma runStops_absent (calls : List StopCall) (p : Pid)
    (hok : ∀ c ∈ calls, c.env.stateManaged = true ∧ c.env.lockOk = true) :
    ∀ r ∈ runStops ⟨none⟩ calls,
      Action.kill p ∉ r.2 ∧ Action.write p shutdown_cmd ∉ r.2
      ∧ (r.1 = none ∨
          r.1 = some (.error "No active sidecar process to shutdown.")) := by
  induction calls with
  | nil => intro r hr; simp [runStops] at hr
  | cons c cs ih =>
    intro r hr
    obtain ⟨hcs, hcl⟩ := hok c (by simp)
    have habs := runStopCall_absent c p hcs hcl
    rcases h : runStopCall c ⟨none⟩ with ⟨r1, s1, acts1⟩
    rw [h] at habs
    simp only [runStops, h] at hr
    rcases List.mem_cons.mp hr with rfl | hr
    · exact ⟨habs.2.1, habs.2.2.1, habs.2.2.2⟩
    · have hs1 : s1 = ⟨none⟩ := habs.1
      subst hs1
      exact ih (fun c2 hc2 => hok c2 (List.mem_cons_of_mem _ hc2)) r hr

/-- C2: when any nonempty collection of concurrent stop triggers (explicit
commands or event cleanups), serialized by the mutex into some order, runs
on a slot holding one worker `p`, exactly one caller acts on the handle:
the first in the serialization both writes the graceful command to `p` and
kills `p`, every later caller neither writes to nor kills `p` and observes
the absence (the event path returns nothing, the command path the
no-active-process error), and the number of callers whose trace kills `p`
is exactly one. -/
theorem concurrent_stop_single_winner (p : Pid) (calls : List StopCall)
    (hne : calls ≠ [])
    (hok : ∀ c ∈ calls, c.env.stateManaged = true ∧ c.env.lockOk = true) :
    ((runStops ⟨some p⟩ calls).countP
        (fun r => decide (Action.kill p ∈ r.2)) = 1)
    ∧ (∀ r ∈ ((runStops ⟨some p⟩ calls).head?).toList,
        Action.kill p ∈ r.2 ∧ Action.write p shutdown_cmd ∈ r.2)
    ∧ (∀ r ∈ (runStops ⟨some p⟩ calls).tail,
        Action.kill p ∉ r.2 ∧ Action.write p shutdown_cmd ∉ r.2
        ∧ (r.1 = none ∨
            r.1 = some (.error "No active sidecar process to shutdown."))) := by
  obtain ⟨c, cs, rfl⟩ : ∃ c cs, calls = c :: cs := by
    cases calls with
    | nil => exact absurd rfl hne
    | cons c cs => exact ⟨c, cs, rfl⟩
  obtain ⟨hcs, hcl⟩ := hok c (by simp)
  have hpres := runStopCall_present c p hcs hcl
  rcases h : runStopCall c ⟨some p⟩ with ⟨r1, s1, acts1⟩
  rw [h] at hpres
  obtain ⟨hs1, hkill, hwrite⟩ := hpres
  subst hs1
  have htail := runStops_absent cs p
    (fun c2 hc2 => hok c2 (List.mem_cons_of_mem _ hc2))
  refine ⟨?_, ?_, ?_⟩
  · simp only [runStops, h]
    rw [List.countP_cons]
    have h0 : (runStops ⟨none⟩ cs).countP
        (fun r => decide (Action.kill p ∈ r.2)) = 0 := by
      apply List.countP_eq_zero.mpr
      intro r hr
      simpa using (htail r hr).1
    rw [h0]
    simp [hkill]
  · intro r hr
    simp only [runStops, h, List.head?, Option.toList, List.mem_singleton] at hr
    subst hr
    exact ⟨hkill, hwrite⟩
  · intro r hr
    simp only [runStops, h, List.tail] at hr
    exact htail r hr

/-- Two serialized stop triggers for the witness: the explicit command and
an event cleanup, both with every interaction succeeding. -/
def witnessCalls : List StopCall :=
  [⟨true, okStopEnv, noListeners⟩, ⟨false, okStopEnv, noListeners⟩]

/-- C2 witness for `concurrent_stop_single_winner` on two concrete
serialized triggers over worker 5: exactly one trace kills the worker. -/
theorem concurrent_stop_single_winner_witness :
    (runStops ⟨some 5⟩ witnessCalls).countP
      (fun r => decide (Action.kill 5 ∈ r.2)) = 1 :=
  (concurrent_stop_single_winner 5 witnessCalls (by simp [witnessCalls])
    (by intro c hc
        simp only [witnessCalls, List.mem_cons, List.mem_singleton] at hc
        rcases hc with rfl | rfl | h
        · exact ⟨rfl, rfl⟩
        · exact ⟨rfl, rfl⟩
        · simp at h)).1

end Sidecar
